import Mathlib

/-!
Shallow embedding of the durable core of the `amazon_kdp_upload_automation`
repository: the completion ledger, the work queue, the per-book upload
pipeline and batch scheduler of `kdp_automation.py` (class `KDPAutomator`),
and the asset preparer of `kdp_preparation.py` (class `KDPFileManager`).

Conventions of the embedding:
- the Python `set` of processed directory names is a `Finset String`;
- the filesystem is a list of existing paths (`List String`);
- outcomes of browser-driven stages are oracle booleans (the Python stage
  methods return `bool`; an exception caught inside a stage is its `False`);
- `pandas` NaN cells of numeric columns are `Option Int` with `none` for NaN
  (`convert_to_json_safe` maps NaN to Python `None`);
- Python float division of integer cents by 100 is exact division in `ℚ`;
- wall-clock timestamps (`last_updated`, `prepared_at`) are not modelled.
-/

namespace KDPAutomator

/-- The state of the `processed_books.json` backing file as seen by
`load_processed_books_tracking`: missing, present but raising during
`json.load`/field access (any exception is caught), or parsed with a
`processed_directories` list (`.get` with default `[]` folds a missing key
into the empty list). -/
inductive LedgerFile where
  | absent : LedgerFile
  | corrupt : LedgerFile
  | record (dirs : List String) : LedgerFile
deriving DecidableEq

/-- Log level of the message emitted by `load_processed_books_tracking`:
`logging.info` on the non-exception paths, `logging.warning` in the
`except` handler. -/
inductive LogLevel where
  | info : LogLevel
  | warning : LogLevel
deriving DecidableEq

/-- `load_processed_books_tracking`: every outcome of reading the backing
file yields a set (never raises): missing file and any exception both give
the empty set; a parsed record gives `set(processed_directories)`. Returns
the loaded set together with the level of the log message emitted. -/
def load_processed_books_tracking : LedgerFile → Finset String × LogLevel
  | LedgerFile.absent => (∅, LogLevel.info)
  | LedgerFile.corrupt => (∅, LogLevel.warning)
  | LedgerFile.record dirs => (dirs.toFinset, LogLevel.info)

/-- The JSON object written by `save_processed_books_tracking`
(`last_updated` timestamp omitted from the model). -/
structure TrackingData where
  processed_directories : List String
  total_processed : Nat
deriving DecidableEq

/-- `save_processed_books_tracking`: serializes the in-memory set
`self.processed_books` as `list(set)` (deterministically ordered here) with
`total_processed = len(set)`. -/
def save_processed_books_tracking (s : Finset String) : TrackingData :=
  { processed_directories := s.sort (· ≤ ·)
    total_processed := s.card }

/-- `self.processed_books.add(name)` followed by write-through
`save_processed_books_tracking` — the mark-done operation of the ledger. -/
def markDone (s : Finset String) (id : String) : Finset String :=
  insert id s

/-- Ledger membership test, `name in self.processed_books`. -/
def ledgerContains (s : Finset String) (id : String) : Bool :=
  decide (id ∈ s)

/-- C6: mark-done is idempotent: after a second `markDone id`, membership of
`id` still holds and the in-memory set, its cardinality, and the persisted
record (hence `total_processed` and the persisted list's length) are all
unchanged from the first call. -/
theorem markDone_idempotent (s : Finset String) (id : String) :
    ledgerContains (markDone (markDone s id) id) id = true ∧
    markDone (markDone s id) id = markDone s id ∧
    (markDone (markDone s id) id).card = (markDone s id).card ∧
    save_processed_books_tracking (markDone (markDone s id) id) =
      save_processed_books_tracking (markDone s id) := by
  refine ⟨?_, ?_, ?_, ?_⟩
  · simp [ledgerContains, markDone]
  · simp [markDone, Finset.insert_idem]
  · simp [markDone, Finset.insert_idem]
  · simp [save_processed_books_tracking, markDone, Finset.insert_idem]

/-- C7 counterexample: on an absent backing file the load operation yields
the empty set but logs at `info` level ("No previous processing tracking
found, starting fresh"), not a warning; only the corrupt case logs a
warning. -/
theorem load_absent_logs_info :
    load_processed_books_tracking LedgerFile.absent = (∅, LogLevel.info) ∧
    LogLevel.info ≠ LogLevel.warning := by
  refine ⟨rfl, by decide⟩

/-- C7 (amended): for every state of the backing file the load operation is
total (never fatal); an absent or corrupt file yields the empty set, and the
corrupt case logs a warning (the absent case logs at info level). -/
theorem load_never_fatal (f : LedgerFile)
    (h : f = LedgerFile.absent ∨ f = LedgerFile.corrupt) :
    (load_processed_books_tracking f).1 = ∅ ∧
    (f = LedgerFile.corrupt →
      (load_processed_books_tracking f).2 = LogLevel.warning) := by
  rcases h with h | h <;> subst h <;> exact ⟨rfl, by simp [load_processed_books_tracking]⟩

/-- C7 witness: the amended theorem at the corrupt file state. -/
theorem load_never_fatal_witness :
    (load_processed_books_tracking LedgerFile.corrupt).1 = ∅ ∧
    (LedgerFile.corrupt = LedgerFile.corrupt →
      (load_processed_books_tracking LedgerFile.corrupt).2 = LogLevel.warning) :=
  load_never_fatal LedgerFile.corrupt (Or.inr rfl)

/-- C10: every record written by `save_processed_books_tracking` is
internally consistent: `total_processed` equals the length of
`processed_directories`, and that list has no duplicates (it serializes a
set). -/
theorem save_tracking_consistent (s : Finset String) :
    (save_processed_books_tracking s).total_processed =
      (save_processed_books_tracking s).processed_directories.length ∧
    (save_processed_books_tracking s).processed_directories.Nodup := by
  constructor
  · simp [save_processed_books_tracking]
  · exact Finset.sort_nodup _ s

/-- Body of the loop of `get_next_books_to_process`: walk the remaining
books (with `i` the current index), skip directories already in
`processed`, append the index of an unprocessed book to `acc`, and break as
soon as the accumulated list has reached `count` entries. Note the Python
code appends before testing `len(available_books) >= count`. -/
def nextBooksAux (processed : Finset String) (count : Nat) :
    List String → Nat → List Nat → List Nat
  | [], _, acc => acc
  | b :: rest, i, acc =>
    if b ∈ processed then nextBooksAux processed count rest (i + 1) acc
    else if count ≤ acc.length + 1 then acc ++ [i]
    else nextBooksAux processed count rest (i + 1) (acc ++ [i])

/-- `get_next_books_to_process(count)`: indices (in catalog order) of the
first books whose directory name is not in `processed`, at most `count` of
them found by the break-on-full loop. `books` is the catalog's list of
directory names, in the sorted order produced by `load_books_data`. -/
def get_next_books_to_process (books : List String) (processed : Finset String)
    (count : Nat) : List Nat :=
  nextBooksAux processed count books 0 []

/-- Specification-side recursion: indices (offset by `i`) of the first `k`
elements of `rest` not in `processed`. -/
def specIdx (processed : Finset String) : List String → Nat → Nat → List Nat
  | [], _, _ => []
  | b :: rest, i, k =>
    if b ∈ processed then specIdx processed rest (i + 1) k
    else
      match k with
      | 0 => []
      | Nat.succ k2 => i :: specIdx processed rest (i + 1) k2

theorem specIdx_zero (processed : Finset String) (rest : List String) (i : Nat) :
    specIdx processed rest i 0 = [] := by
  induction rest generalizing i with
  | nil => rfl
  | cons b rest ih =>
    by_cases hb : b ∈ processed <;> simp [specIdx, hb, ih]

theorem nextBooksAux_eq_specIdx (processed : Finset String) (count : Nat) :
    ∀ (rest : List String) (i : Nat) (acc : List Nat), acc.length < count →
      nextBooksAux processed count rest i acc =
        acc ++ specIdx processed rest i (count - acc.length) := by
  intro rest
  induction rest with
  | nil => intro i acc _; simp [nextBooksAux, specIdx]
  | cons b rest ih =>
    intro i acc hlt
    by_cases hb : b ∈ processed
    · simpa [nextBooksAux, specIdx, hb] using ih (i + 1) acc hlt
    · by_cases hfull : count ≤ acc.length + 1
      · have hcount : count = acc.length + 1 := le_antisymm hfull hlt
        have hk : count - acc.length = 1 := by omega
        simp [nextBooksAux, specIdx, hb, hfull, hk, specIdx_zero]
      · have hlt2 : (acc ++ [i]).length < count := by
          simp only [List.length_append, List.length_singleton]; omega
        have hrec := ih (i + 1) (acc ++ [i]) hlt2
        have hk : count - acc.length = (count - (acc ++ [i]).length) + 1 := by
          simp only [List.length_append, List.length_singleton]; omega
        simp only [nextBooksAux, hb, if_false, hfull, if_neg, ite_false, hrec, hk]
        simp [specIdx, hb, List.append_assoc]

theorem specIdx_map_getD (books : List String) (processed : Finset String) :
    ∀ (rest : List String) (i : Nat) (k : Nat), books.drop i = rest →
      (specIdx processed rest i k).map (fun j => books.getD j "") =
        (rest.filter (fun b => decide (b ∉ processed))).take k := by
  intro rest
  induction rest with
  | nil => intro i k _; simp [specIdx]
  | cons b rest ih =>
    intro i k hdrop
    have h1 : books[i]? = some b := by
      have h0 := List.getElem?_drop books i 0
      rw [Nat.add_zero, hdrop] at h0
      simpa using h0.symm
    have hget : books.getD i "" = b := by
      rw [List.getD_eq_getElem?_getD, h1]; rfl
    have hdrop2 : books.drop (i + 1) = rest := by
      have h2 : List.drop 1 (books.drop i) = rest := by rw [hdrop]; rfl
      rw [List.drop_drop] at h2
      simpa [Nat.add_comm] using h2
    by_cases hb : b ∈ processed
    · simp only [specIdx, if_pos hb]
      rw [ih (i + 1) k hdrop2]
      simp [List.filter_cons, hb]
    · cases k with
      | zero => simp [specIdx, hb]
      | succ k2 =>
        simp only [specIdx, if_neg hb, List.map_cons]
        rw [hget, ih (i + 1) k2 hdrop2]
        simp [List.filter_cons, hb]

/-- C1 counterexample: with a one-book catalog, an empty ledger and
`count = 0`, the loop appends the first unprocessed index before testing
the bound, so it returns one identifier instead of the first zero. -/
theorem queue_count_zero_counterexample :
    get_next_books_to_process ["book_000_alpha"] ∅ 0 = [0] ∧
    (["book_000_alpha"].filter (fun b => decide (b ∉ (∅ : Finset String)))).take 0
      = [] := by
  constructor
  · rfl
  · rfl

/-- C1 (amended): for every catalog, ledger and count `n ≥ 1`, the work
queue returns exactly the identifiers of the first `n` books (in stable
catalog order) not in the ledger, and it returns fewer than `n` identifiers
iff fewer than `n` unprocessed identifiers remain (in particular an empty
result is an ordinary value, not an error). The Python function returns
positional indices; `books.getD · ""` reads off the identifier at an
index. -/
theorem queue_correct (books : List String) (processed : Finset String)
    (n : Nat) (hn : 1 ≤ n) :
    (get_next_books_to_process books processed n).map (fun j => books.getD j "") =
      (books.filter (fun b => decide (b ∉ processed))).take n ∧
    ((get_next_books_to_process books processed n).length < n ↔
      (books.filter (fun b => decide (b ∉ processed))).length < n) := by
  have hmain :
      (get_next_books_to_process books processed n).map (fun j => books.getD j "") =
        (books.filter (fun b => decide (b ∉ processed))).take n := by
    unfold get_next_books_to_process
    rw [nextBooksAux_eq_specIdx processed n books 0 [] (by simpa using hn)]
    simpa using specIdx_map_getD books processed books 0 n (by simp)
  refine ⟨hmain, ?_⟩
  have hlen : (get_next_books_to_process books processed n).length =
      min n (books.filter (fun b => decide (b ∉ processed))).length := by
    have := congrArg List.length hmain
    simpa [List.length_map, List.length_take] using this
  rw [hlen]
  omega

/-- C1 witness: the amended theorem at a concrete catalog of three books,
one of them already in the ledger, with `n = 2`. -/
theorem queue_correct_witness :
    (get_next_books_to_process ["a", "b", "c"] {"b"} 2).map
        (fun j => ["a", "b", "c"].getD j "") =
      (["a", "b", "c"].filter (fun b => decide (b ∉ ({"b"} : Finset String)))).take 2 ∧
    ((get_next_books_to_process ["a", "b", "c"] {"b"} 2).length < 2 ↔
      (["a", "b", "c"].filter (fun b => decide (b ∉ ({"b"} : Finset String)))).length < 2) :=
  queue_correct ["a", "b", "c"] {"b"} 2 (by decide)

/-- Environment of `login_to_kdp`: whether credentials are configured,
whether `session_manager.restore_session` succeeds, whether the restored
session is already logged in (`is_logged_in`), and whether the interactive
credential login path ends logged in. -/
structure LoginEnv where
  emailConfigured : Bool
  passwordConfigured : Bool
  sessionRestored : Bool
  alreadyLoggedIn : Bool
  interactiveLoginOk : Bool
deriving DecidableEq

/-- `login_to_kdp`: fails when credentials are missing; otherwise tries
session restoration first (success only if the restored session is logged
in), then falls back to the interactive credential login. Exceptions on the
interactive path are caught and reported as `False`, folded into
`interactiveLoginOk`. -/
def login_to_kdp (env : LoginEnv) : Bool :=
  if !env.emailConfigured || !env.passwordConfigured then false
  else if env.sessionRestored && env.alreadyLoggedIn then true
  else env.interactiveLoginOk

/-- Environment of `publish_book`: whether a publish button is clickable on
the first pass, whether one is found after the scroll fallback, whether a
confirmation dialog button appears (clicked if so, with no effect on the
return value), and whether a success indicator element is present
afterwards. -/
structure PublishEnv where
  buttonFound : Bool
  buttonFoundAfterScroll : Bool
  confirmFound : Bool
  successIndicatorFound : Bool
deriving DecidableEq

/-- Result of `publish_book`: the returned boolean, plus whether the
"Could not confirm publication success" warning was logged. -/
structure PublishResult where
  success : Bool
  warned : Bool
deriving DecidableEq

/-- `publish_book`: returns `False` only when no publish button is found
even after scrolling; once the button is clicked, the function returns
`True` whether or not a success indicator is detected, merely logging a
warning when it is not. -/
def publish_book (env : PublishEnv) : PublishResult :=
  if env.buttonFound then
    { success := true, warned := !env.successIndicatorFound }
  else if env.buttonFoundAfterScroll then
    { success := true, warned := !env.successIndicatorFound }
  else { success := false, warned := false }

/-- The five browser-driven stages invoked by `process_single_book`, in
source order (STEP 1 through STEP 5). -/
inductive Stage where
  | navigate : Stage
  | details : Stage
  | upload : Stage
  | price : Stage
  | publish : Stage
deriving DecidableEq

/-- Oracle outcomes of the five stage methods for one book
(`navigate_to_create_book`, `fill_book_details`, `upload_book_files`,
`set_pricing`, `publish_book`); each method returns a boolean and catches
its own exceptions. -/
structure StageOutcomes where
  navigate : Bool
  details : Bool
  upload : Bool
  price : Bool
  publish : Bool
deriving DecidableEq

/-- Result of `process_single_book`: the returned boolean, the stages that
were actually invoked (in order), and the ledger set after the call. -/
structure BookResult where
  success : Bool
  invoked : List Stage
  ledger : Finset String
deriving DecidableEq

/-- `process_single_book`: runs the five stages in order, returning `False`
at the first stage that reports failure (no later stage is invoked, the
ledger is untouched); only after all five succeed is the directory name
added to `processed_books` and written through by
`save_processed_books_tracking`. -/
def process_single_book (oc : StageOutcomes) (bookDir : String)
    (ledger : Finset String) : BookResult :=
  if !oc.navigate then
    { success := false, invoked := [Stage.navigate], ledger := ledger }
  else if !oc.details then
    { success := false, invoked := [Stage.navigate, Stage.details], ledger := ledger }
  else if !oc.upload then
    { success := false, invoked := [Stage.navigate, Stage.details, Stage.upload],
      ledger := ledger }
  else if !oc.price then
    { success := false,
      invoked := [Stage.navigate, Stage.details, Stage.upload, Stage.price],
      ledger := ledger }
  else if !oc.publish then
    { success := false,
      invoked := [Stage.navigate, Stage.details, Stage.upload, Stage.price, Stage.publish],
      ledger := ledger }
  else
    { success := true,
      invoked := [Stage.navigate, Stage.details, Stage.upload, Stage.price, Stage.publish],
      ledger := markDone ledger bookDir }

/-- The book loop of `process_daily_batch`: every queued index is handed to
`process_single_book` (its boolean result only feeds the success counter),
threading the ledger. Returns the list of directory names for which
`process_single_book` was invoked and the final ledger. -/
def batchLoop (books : List String) (outcomes : String → StageOutcomes) :
    List Nat → Finset String → List String × Finset String
  | [], ledger => ([], ledger)
  | i :: rest, ledger =>
    let id := books.getD i ""
    let r := process_single_book (outcomes id) id ledger
    let rec2 := batchLoop books outcomes rest r.ledger
    (id :: rec2.1, rec2.2)

/-- `process_daily_batch`: aborts (processing nothing) when `login_to_kdp`
fails, before the work queue is consulted; otherwise processes every book
of `get_next_books_to_process(books_per_day)` in order. -/
def process_daily_batch (env : LoginEnv) (books : List String)
    (ledger : Finset String) (outcomes : String → StageOutcomes)
    (booksPerDay : Nat) : List String × Finset String :=
  if login_to_kdp env then
    batchLoop books outcomes (get_next_books_to_process books ledger booksPerDay) ledger
  else ([], ledger)

/-- C2: for a book not yet in the ledger, after `process_single_book` its
identifier is in the ledger iff all five stages reported success; the
returned boolean equals that same condition, and on any failure the ledger
is left unchanged — so reaching publish success is the only path that adds
the identifier. -/
theorem ledger_iff_all_stages (oc : StageOutcomes) (id : String)
    (ledger : Finset String) (h : id ∉ ledger) :
    (id ∈ (process_single_book oc id ledger).ledger ↔
      (oc.navigate && oc.details && oc.upload && oc.price && oc.publish) = true) ∧
    ((process_single_book oc id ledger).success =
      (oc.navigate && oc.details && oc.upload && oc.price && oc.publish)) ∧
    ((oc.navigate && oc.details && oc.upload && oc.price && oc.publish) = false →
      (process_single_book oc id ledger).ledger = ledger) := by
  obtain ⟨n, d, u, p, q⟩ := oc
  cases n <;> cases d <;> cases u <;> cases p <;> cases q <;>
    simp_all [process_single_book, markDone]

/-- C2 witness: a concrete book with all stages succeeding, starting from
an empty ledger. -/
theorem ledger_iff_all_stages_witness :
    ("book_000_a" ∈ (process_single_book
        ⟨true, true, true, true, true⟩ "book_000_a" ∅).ledger ↔ (true && true && true && true && true) = true) ∧
    ((process_single_book ⟨true, true, true, true, true⟩ "book_000_a" ∅).success =
      (true && true && true && true && true)) ∧
    ((true && true && true && true && true) = false →
      (process_single_book ⟨true, true, true, true, true⟩ "book_000_a" ∅).ledger = ∅) :=
  ledger_iff_all_stages ⟨true, true, true, true, true⟩ "book_000_a" ∅ (by simp)

/-- C3: when the details stage reports a hard failure (navigation having
succeeded), `process_single_book` returns failure having invoked only the
navigate and details stages — upload, price and publish are never invoked
and the ledger is unchanged; and independently of any per-book outcomes,
the batch loop still hands every queued book to `process_single_book`, so
one book's failure never aborts the rest of the batch. -/
theorem details_failure_short_circuits (oc : StageOutcomes) (id : String)
    (ledger : Finset String) (hnav : oc.navigate = true) (hdet : oc.details = false) :
    (process_single_book oc id ledger =
      { success := false, invoked := [Stage.navigate, Stage.details], ledger := ledger }) ∧
    (Stage.upload ∉ (process_single_book oc id ledger).invoked ∧
      Stage.price ∉ (process_single_book oc id ledger).invoked ∧
      Stage.publish ∉ (process_single_book oc id ledger).invoked) ∧
    (∀ (books : List String) (queue : List Nat) (outcomes1 outcomes2 : String → StageOutcomes)
        (l1 l2 : Finset String),
      (batchLoop books outcomes1 queue l1).1 = (batchLoop books outcomes2 queue l2).1) := by
  refine ⟨?_, ?_, ?_⟩
  · simp [process_single_book, hnav, hdet]
  · simp [process_single_book, hnav, hdet]
  · intro books queue outcomes1 outcomes2 l1 l2
    induction queue generalizing l1 l2 with
    | nil => rfl
    | cons i rest ih =>
      simp [batchLoop]
      exact ih _ _

/-- C3 witness: a concrete book whose details stage fails after successful
navigation. -/
theorem details_failure_short_circuits_witness :
    (process_single_book ⟨true, false, true, true, true⟩ "book_000_a" ∅ =
      { success := false, invoked := [Stage.navigate, Stage.details], ledger := ∅ }) ∧
    (Stage.upload ∉ (process_single_book ⟨true, false, true, true, true⟩ "book_000_a" ∅).invoked ∧
      Stage.price ∉ (process_single_book ⟨true, false, true, true, true⟩ "book_000_a" ∅).invoked ∧
      Stage.publish ∉ (process_single_book ⟨true, false, true, true, true⟩ "book_000_a" ∅).invoked) ∧
    (∀ (books : List String) (queue : List Nat) (outcomes1 outcomes2 : String → StageOutcomes)
        (l1 l2 : Finset String),
      (batchLoop books outcomes1 queue l1).1 = (batchLoop books outcomes2 queue l2).1) :=
  details_failure_short_circuits ⟨true, false, true, true, true⟩ "book_000_a" ∅ rfl rfl

/-- C4: when `login_to_kdp` fails, `process_daily_batch` returns with no
book processed and the ledger untouched, whatever the catalog, ledger,
outcomes and batch size — the work queue is never consulted. -/
theorem auth_failure_aborts_batch (env : LoginEnv) (books : List String)
    (ledger : Finset String) (outcomes : String → StageOutcomes) (n : Nat)
    (h : login_to_kdp env = false) :
    process_daily_batch env books ledger outcomes n = ([], ledger) := by
  simp [process_daily_batch, h]

/-- C4 witness: a batch over a two-book catalog with unconfigured
credentials processes nothing. -/
theorem auth_failure_aborts_batch_witness :
    process_daily_batch ⟨false, true, true, true, true⟩ ["a", "b"] ∅
      (fun _ => ⟨true, true, true, true, true⟩) 3 = ([], ∅) :=
  auth_failure_aborts_batch ⟨false, true, true, true, true⟩ ["a", "b"] ∅
    (fun _ => ⟨true, true, true, true, true⟩) 3 rfl

/-- C8: whenever a publish button was found and clicked (directly or after
the scroll fallback) but no success indicator is detected afterwards,
`publish_book` logs a warning yet still returns success, and with the four
earlier stages succeeding the book is marked done in the ledger. -/
theorem publish_soft_success (env : PublishEnv) (id : String) (ledger : Finset String)
    (hbtn : env.buttonFound = true ∨ env.buttonFoundAfterScroll = true)
    (hind : env.successIndicatorFound = false) :
    (publish_book env).success = true ∧ (publish_book env).warned = true ∧
    (process_single_book ⟨true, true, true, true, (publish_book env).success⟩
        id ledger).ledger = insert id ledger := by
    rcases hbtn with hb | hb
    · refine ⟨by simp [publish_book, hb], by simp [publish_book, hb, hind], ?_⟩
      simp [publish_book, hb, process_single_book, markDone]
    · by_cases hb1 : env.buttonFound
      · refine ⟨by simp [publish_book, hb1], by simp [publish_book, hb1, hind], ?_⟩
        simp [publish_book, hb1, process_single_book, markDone]
      · refine ⟨by simp [publish_book, hb1, hb], by simp [publish_book, hb1, hb, hind], ?_⟩
        simp [publish_book, hb1, hb, process_single_book, markDone]

/-- C8 witness: button found on the first pass, no success indicator. -/
theorem publish_soft_success_witness :
    (publish_book ⟨true, false, false, false⟩).success = true ∧
    (publish_book ⟨true, false, false, false⟩).warned = true ∧
    (process_single_book
        ⟨true, true, true, true, (publish_book ⟨true, false, false, false⟩).success⟩
        "book_000_a" ∅).ledger = insert "book_000_a" ∅ :=
  publish_soft_success ⟨true, false, false, false⟩ "book_000_a" ∅ (Or.inl rfl) rfl

end KDPAutomator

namespace KDPFileManager

/-- ASCII whitespace as stripped by Python `str.strip()`. -/
def isSpaceChar (c : Char) : Bool :=
  c = ' ' || c = '\t' || c = '\n' || c = '\r' || c = '\x0b' || c = '\x0c'

/-- Python `str.strip()` on the character list of a string. -/
def pyStrip (s : String) : String :=
  let l := s.toList.dropWhile isSpaceChar
  String.mk ((l.reverse.dropWhile isSpaceChar).reverse)

/-- `clean_file_path`: `strip()` then `strip` of double-quote characters
from both ends (the Python code strips quotes twice; the second strip is a
no-op). Non-string (NaN) cells never reach this in the model: blank cells
are the empty string, which is falsy in the copy loop. -/
def clean_file_path (s : String) : String :=
  let t := (pyStrip s).toList
  let l := t.dropWhile (fun c => c = '"')
  String.mk ((l.reverse.dropWhile (fun c => c = '"')).reverse)

/-- The title sanitization of `prepare_book_files`:
`str(title).replace(' ', '_').replace('/', '_').replace('\\', '_')`. -/
def sanitizeTitle (s : String) : String :=
  String.mk (s.toList.map (fun c => if c = ' ' ∨ c = '/' ∨ c = '\\' then '_' else c))

/-- Zero-padding of the book index, Python `f"{book_index:03d}"`. -/
def pad3 (n : Nat) : String :=
  let s := toString n
  if s.length < 3 then String.mk (List.replicate (3 - s.length) '0') ++ s else s

/-- `pathlib.Path(source).suffix`: the extension (with leading dot) of the
final path component, empty for dotless names, leading-dot-only names and
trailing dots. -/
def pathSuffix (s : String) : String :=
  let nm := (s.splitOn "/").getLastD s
  let parts := nm.splitOn "."
  match parts with
  | [] => ""
  | [_] => ""
  | first :: _ :: _ =>
    let ext := parts.getLastD ""
    if first = "" ∧ parts.length = 2 then ""
    else if ext = "" then "" else "." ++ ext

/-- One row of the metadata CSV as read by `load_book_data`. Numeric cells
are `Option Int` with `none` for a NaN cell (`convert_to_json_safe` maps
NaN to Python `None`); blank file-reference cells are the empty string. -/
structure CatalogRecord where
  title : String
  subtitle : Option String
  author : String
  description_html : String
  keywords : String
  language : String
  bisac : String
  age_min : Option Int
  age_max : Option Int
  trim_size : String
  paper_color : String
  cover_finish : String
  price_print_eur : Option Int
  price_print_usd : Option Int
  price_ebook_eur : Option Int
  price_ebook_usd : Option Int
  ebook_cover : String
  print_cover : String
  epub : String
  docx : String
deriving DecidableEq, Inhabited

/-- The descriptor persisted as `metadata.json` (the `prepared_at`
timestamp is not modelled); prices are major-unit exact rationals, `files`
maps each copied role name to its destination path in insertion order. -/
structure Metadata where
  title : String
  subtitle : Option String
  author : String
  description_html : String
  keywords : String
  language : String
  bisac : String
  age_min : Option Int
  age_max : Option Int
  trim_size : String
  paper_color : String
  cover_finish : String
  price_print_eur : ℚ
  price_print_usd : ℚ
  price_ebook_eur : ℚ
  price_ebook_usd : ℚ
  files : List (String × String)
deriving DecidableEq

/-- The per-book output directory `output_directory/book_{index:03d}_{title}`
(output root `./prepared_books`, its default). -/
def bookDirName (book : CatalogRecord) (idx : Nat) : String :=
  "prepared_books/book_" ++ pad3 idx ++ "_" ++ sanitizeTitle book.title

/-- One iteration of the copy loop of `prepare_book_files` over the
`files_to_copy` dict: if the cleaned source path is non-empty (truthy) and
exists in the filesystem, the file is copied to a role-qualified
destination name, the role is recorded in `copied_files`, and the
destination now exists; otherwise only a warning is logged and the state is
unchanged. -/
def copyRole (state : List (String × String) × List String)
    (bookDir title role source : String) : List (String × String) × List String :=
  let src := clean_file_path source
  if src ≠ "" ∧ src ∈ state.2 then
    let dest := bookDir ++ "/" ++ title ++ "_" ++ role ++ pathSuffix src
    (state.1 ++ [(role, dest)], dest :: state.2)
  else state

/-- `prepare_book_files`: creates the book directory, copies the four file
roles that are present (`ebook_cover`, `print_cover`, `epub`, `docx`, in
dict order), then builds the descriptor, dividing each minor-unit price by
100. A NaN price cell becomes Python `None`, and `None / 100` raises a
`TypeError` that the function does not catch — modelled as the error
branch. On success returns the book directory, the descriptor and the
updated filesystem. -/
def prepare_book_files (fs : List String) (book : CatalogRecord) (idx : Nat) :
    Except String (String × Metadata × List String) :=
  let title := sanitizeTitle book.title
  let bookDir := bookDirName book idx
  let s1 := copyRole ([], fs) bookDir title "ebook_cover" book.ebook_cover
  let s2 := copyRole s1 bookDir title "print_cover" book.print_cover
  let s3 := copyRole s2 bookDir title "epub" book.epub
  let s4 := copyRole s3 bookDir title "docx" book.docx
  match book.price_print_eur, book.price_print_usd,
      book.price_ebook_eur, book.price_ebook_usd with
  | some a, some b, some c, some d =>
    Except.ok (bookDir,
      { title := book.title, subtitle := book.subtitle, author := book.author
        description_html := book.description_html, keywords := book.keywords
        language := book.language, bisac := book.bisac
        age_min := book.age_min, age_max := book.age_max
        trim_size := book.trim_size, paper_color := book.paper_color
        cover_finish := book.cover_finish
        price_print_eur := (a : ℚ) / 100, price_print_usd := (b : ℚ) / 100
        price_ebook_eur := (c : ℚ) / 100, price_ebook_usd := (d : ℚ) / 100
        files := s4.1 },
      s4.2)
  | _, _, _, _ =>
    Except.error "TypeError: unsupported operand type for /: NoneType and int"

/-- A file-reference field is present: cleaned path non-empty and the file
exists. -/
def present (fs : List String) (source : String) : Prop :=
  clean_file_path source ≠ "" ∧ clean_file_path source ∈ fs

instance (fs : List String) (source : String) : Decidable (present fs source) := by
  unfold present; infer_instance

/-- The four file roles of the `files_to_copy` dict, in its order. -/
inductive FileRole where
  | ebook_cover : FileRole
  | print_cover : FileRole
  | epub : FileRole
  | docx : FileRole
deriving DecidableEq, Fintype

def roleName : FileRole → String
  | FileRole.ebook_cover => "ebook_cover"
  | FileRole.print_cover => "print_cover"
  | FileRole.epub => "epub"
  | FileRole.docx => "docx"

def roleSource (book : CatalogRecord) : FileRole → String
  | FileRole.ebook_cover => book.ebook_cover
  | FileRole.print_cover => book.print_cover
  | FileRole.epub => book.epub
  | FileRole.docx => book.docx

theorem copyRole_present (files : List (String × String)) (fs : List String)
    (bookDir title role source : String)
    (h1 : clean_file_path source ≠ "") (h2 : clean_file_path source ∈ fs) :
    copyRole (files, fs) bookDir title role source =
      (files ++ [(role,
          bookDir ++ "/" ++ title ++ "_" ++ role ++ pathSuffix (clean_file_path source))],
        (bookDir ++ "/" ++ title ++ "_" ++ role ++ pathSuffix (clean_file_path source)) :: fs) := by
  simp [copyRole, h1, h2]

theorem copyRole_absent (files : List (String × String)) (fs : List String)
    (bookDir title role source : String) (h : clean_file_path source = "") :
    copyRole (files, fs) bookDir title role source = (files, fs) := by
  simp [copyRole, h]

/-- C5: (a) for a record whose four file roles are all present as existing
files and whose price cells are integer minor units with
`price_ebook_usd = 1999`, `prepare_book_files` succeeds and yields a
descriptor with `price_ebook_usd = 19.99` (each monetary cell divided by
100) whose `files` map holds exactly the four roles, every destination path
existing afterwards; (b) for a record missing one file role (blank cell),
preparation still succeeds and the `files` map omits exactly that role. -/
theorem prepare_roundtrip :
    (∀ (fs : List String) (book : CatalogRecord) (idx : Nat),
      present fs book.ebook_cover → present fs book.print_cover →
      present fs book.epub → present fs book.docx →
      book.price_print_eur.isSome = true → book.price_print_usd.isSome = true →
      book.price_ebook_eur.isSome = true → book.price_ebook_usd = some 1999 →
      ∃ m fs2, prepare_book_files fs book idx =
          Except.ok (bookDirName book idx, m, fs2) ∧
        m.price_ebook_usd = (19.99 : ℚ) ∧
        m.files.map Prod.fst = ["ebook_cover", "print_cover", "epub", "docx"] ∧
        ∀ pth ∈ m.files.map Prod.snd, pth ∈ fs2) ∧
    (∀ (fs : List String) (book : CatalogRecord) (idx : Nat) (r : FileRole),
      clean_file_path (roleSource book r) = "" →
      (∀ r2 : FileRole, r2 ≠ r → present fs (roleSource book r2)) →
      book.price_print_eur.isSome = true → book.price_print_usd.isSome = true →
      book.price_ebook_eur.isSome = true → book.price_ebook_usd.isSome = true →
      ∃ m fs2, prepare_book_files fs book idx =
          Except.ok (bookDirName book idx, m, fs2) ∧
        m.files.map Prod.fst =
          (["ebook_cover", "print_cover", "epub", "docx"]).erase (roleName r)) := by
  constructor
  · intro fs book idx hA hB hC hD hpe hpu hee husd
    obtain ⟨a, ha⟩ := Option.isSome_iff_exists.mp hpe
    obtain ⟨b, hb⟩ := Option.isSome_iff_exists.mp hpu
    obtain ⟨c, hc⟩ := Option.isSome_iff_exists.mp hee
    simp only [prepare_book_files, copyRole, ha, hb, hc, husd,
      hA.1, hA.2, hB.1, hB.2, hC.1, hC.2, hD.1, hD.2,
      ne_eq, not_false_iff, List.mem_cons, or_true, and_self, if_true,
      List.nil_append, List.append_assoc, List.cons_append]
    refine ⟨_, _, rfl, ?_, ?_, ?_⟩
    · norm_num
    · simp
    · intro pth hpth
      simp only [List.map_cons, List.map_nil, List.mem_cons,
        List.not_mem_nil, or_false] at hpth
      rcases hpth with h | h | h | h <;> subst h <;> simp
  · intro fs book idx r habs hoth hpe hpu hee heu
    obtain ⟨a, ha⟩ := Option.isSome_iff_exists.mp hpe
    obtain ⟨b, hb⟩ := Option.isSome_iff_exists.mp hpu
    obtain ⟨c, hc⟩ := Option.isSome_iff_exists.mp hee
    obtain ⟨d, hd⟩ := Option.isSome_iff_exists.mp heu
    cases r with
    | ebook_cover =>
      have h2 := hoth FileRole.print_cover (by simp)
      have h3 := hoth FileRole.epub (by simp)
      have h4 := hoth FileRole.docx (by simp)
      simp only [roleSource] at habs h2 h3 h4
      simp only [prepare_book_files, copyRole, ha, hb, hc, hd, habs,
        h2.1, h2.2, h3.1, h3.2, h4.1, h4.2,
        ne_eq, not_false_iff, List.mem_cons, or_true, and_self, if_true,
        not_true, false_and, if_false,
        List.nil_append, List.append_assoc, List.cons_append]
      refine ⟨_, _, rfl, by simp [roleName]⟩
    | print_cover =>
      have h2 := hoth FileRole.ebook_cover (by simp)
      have h3 := hoth FileRole.epub (by simp)
      have h4 := hoth FileRole.docx (by simp)
      simp only [roleSource] at habs h2 h3 h4
      simp only [prepare_book_files, copyRole, ha, hb, hc, hd, habs,
        h2.1, h2.2, h3.1, h3.2, h4.1, h4.2,
        ne_eq, not_false_iff, List.mem_cons, or_true, and_self, if_true,
        not_true, false_and, if_false,
        List.nil_append, List.append_assoc, List.cons_append]
      refine ⟨_, _, rfl, by simp [roleName]⟩
    | epub =>
      have h2 := hoth FileRole.ebook_cover (by simp)
      have h3 := hoth FileRole.print_cover (by simp)
      have h4 := hoth FileRole.docx (by simp)
      simp only [roleSource] at habs h2 h3 h4
      simp only [prepare_book_files, copyRole, ha, hb, hc, hd, habs,
        h2.1, h2.2, h3.1, h3.2, h4.1, h4.2,
        ne_eq, not_false_iff, List.mem_cons, or_true, and_self, if_true,
        not_true, false_and, if_false,
        List.nil_append, List.append_assoc, List.cons_append]
      refine ⟨_, _, rfl, by simp [roleName]⟩
    | docx =>
      have h2 := hoth FileRole.ebook_cover (by simp)
      have h3 := hoth FileRole.print_cover (by simp)
      have h4 := hoth FileRole.epub (by simp)
      simp only [roleSource] at habs h2 h3 h4
      simp only [prepare_book_files, copyRole, ha, hb, hc, hd, habs,
        h2.1, h2.2, h3.1, h3.2, h4.1, h4.2,
        ne_eq, not_false_iff, List.mem_cons, or_true, and_self, if_true,
        not_true, false_and, if_false,
        List.nil_append, List.append_assoc, List.cons_append]
      refine ⟨_, _, rfl, by simp [roleName]⟩

/-- Filesystem for the C5 witness: the four referenced source files exist. -/
def wfs : List String := ["c1.jpg", "c2.pdf", "b.epub", "b.docx"]

/-- C5 witness record with all four file roles present and prices in minor
units. -/
def wbookA : CatalogRecord :=
  { title := "My Book", subtitle := none, author := "A"
    description_html := "d", keywords := "k", language := "English"
    bisac := "JUV000000", age_min := none, age_max := none
    trim_size := "6x9", paper_color := "white", cover_finish := "matte"
    price_print_eur := some 1499, price_print_usd := some 1599
    price_ebook_eur := some 1899, price_ebook_usd := some 1999
    ebook_cover := "c1.jpg", print_cover := "c2.pdf"
    epub := "b.epub", docx := "b.docx" }

/-- C5 witness record missing the `epub` role (blank cell). -/
def wbookB : CatalogRecord := { wbookA with epub := "" }

/-- C5 witness: the round-trip theorem applied to the two concrete
records. -/
theorem prepare_roundtrip_witness :
    (∃ m fs2, prepare_book_files wfs wbookA 0 =
        Except.ok (bookDirName wbookA 0, m, fs2) ∧
      m.price_ebook_usd = (19.99 : ℚ) ∧
      m.files.map Prod.fst = ["ebook_cover", "print_cover", "epub", "docx"] ∧
      ∀ pth ∈ m.files.map Prod.snd, pth ∈ fs2) ∧
    (∃ m fs2, prepare_book_files wfs wbookB 0 =
        Except.ok (bookDirName wbookB 0, m, fs2) ∧
      m.files.map Prod.fst =
        (["ebook_cover", "print_cover", "epub", "docx"]).erase
          (roleName FileRole.epub)) :=
  ⟨prepare_roundtrip.1 wfs wbookA 0 (by decide) (by decide) (by decide) (by decide)
      rfl rfl rfl rfl,
    prepare_roundtrip.2 wfs wbookB 0 FileRole.epub (by decide) (by decide)
      rfl rfl rfl rfl⟩

/-- All four price cells of a row are integers (no NaN): exactly the rows
on which `prepare_book_files` does not raise. -/
def rowPricesOk (book : CatalogRecord) : Bool :=
  book.price_print_eur.isSome && book.price_print_usd.isSome &&
    book.price_ebook_eur.isSome && book.price_ebook_usd.isSome

/-- Loop body of `get_next_books_to_process` of `kdp_preparation.py`:
indices not in `processed_books` (a set of ints), appended before the
`len >= count` break test. -/
def prepNextAux (processed : Finset ℕ) (count : Nat) : List Nat → List Nat → List Nat
  | [], acc => acc
  | i :: rest, acc =>
    if i ∈ processed then prepNextAux processed count rest acc
    else if count ≤ acc.length + 1 then acc ++ [i]
    else prepNextAux processed count rest (acc ++ [i])

/-- `get_next_books_to_process(count)` over `range(len(books_df))`. -/
def get_next_books_to_process (n : Nat) (processed : Finset ℕ) (count : Nat) :
    List Nat :=
  prepNextAux processed count (List.range n) []

/-- The book loop of `process_daily_batch` of `kdp_preparation.py`: each
queued row is prepared and its directory appended to `prepared_dirs`; an
exception raised by `prepare_book_files` propagates out of the loop, is
logged by the `except` handler and re-raised — aborting the batch run.
Returns (prepared directories, filesystem, whether the batch aborted). -/
def batchPrepareLoop (rows : List CatalogRecord) :
    List Nat → List String → List String → List String × List String × Bool
  | [], fs, acc => (acc, fs, false)
  | i :: rest, fs, acc =>
    match prepare_book_files fs (rows.getD i default) i with
    | Except.ok res => batchPrepareLoop rows rest res.2.2 (acc ++ [res.1])
    | Except.error _ => (acc, fs, true)

/-- `process_daily_batch` of `kdp_preparation.py`: queue of up to 3
unprocessed row indices, then the prepare loop. -/
def process_daily_batch (rows : List CatalogRecord) (processed : Finset ℕ)
    (fs : List String) : List String × List String × Bool :=
  batchPrepareLoop rows (get_next_books_to_process rows.length processed 3) fs []

theorem prepare_ok_of_prices (fs : List String) (book : CatalogRecord) (idx : Nat)
    (h : rowPricesOk book = true) :
    ∃ m fs2, prepare_book_files fs book idx =
      Except.ok (bookDirName book idx, m, fs2) := by
  simp only [rowPricesOk, Bool.and_eq_true, Option.isSome_iff_exists] at h
  obtain ⟨⟨⟨⟨a, ha⟩, b, hb⟩, c, hc⟩, d, hd⟩ := h
  simp only [prepare_book_files, ha, hb, hc, hd]
  exact ⟨_, _, rfl⟩

theorem prepare_error_of_prices (fs : List String) (book : CatalogRecord) (idx : Nat)
    (h : rowPricesOk book = false) :
    ∃ e, prepare_book_files fs book idx = Except.error e := by
  cases h1 : book.price_print_eur <;> cases h2 : book.price_print_usd <;>
    cases h3 : book.price_ebook_eur <;> cases h4 : book.price_ebook_usd <;>
    simp_all [rowPricesOk, prepare_book_files]

theorem batchPrepareLoop_spec (rows : List CatalogRecord) :
    ∀ (queue : List Nat) (fs acc : List String),
      (batchPrepareLoop rows queue fs acc).1 =
        acc ++ (queue.takeWhile (fun i => rowPricesOk (rows.getD i default))).map
          (fun i => bookDirName (rows.getD i default) i) ∧
      (batchPrepareLoop rows queue fs acc).2.2 =
        !(queue.all (fun i => rowPricesOk (rows.getD i default))) := by
  intro queue
  induction queue with
  | nil => intro fs acc; simp [batchPrepareLoop]
  | cons i rest ih =>
    intro fs acc
    by_cases hp : rowPricesOk (rows.getD i default) = true
    · obtain ⟨m, fs2, heq⟩ := prepare_ok_of_prices fs (rows.getD i default) i hp
      have hpE : rowPricesOk (rows[i]?.getD default) = true := by
        simpa [List.getD_eq_getElem?_getD] using hp
      simp only [batchPrepareLoop, heq]
      constructor
      · rw [(ih fs2 (acc ++ [bookDirName (rows.getD i default) i])).1]
        simp [List.takeWhile_cons, hpE]
      · rw [(ih fs2 (acc ++ [bookDirName (rows.getD i default) i])).2]
        simp [hpE]
    · have hp2 : rowPricesOk (rows.getD i default) = false := by
        simpa using hp
      have hp2E : rowPricesOk (rows[i]?.getD default) = false := by
        simpa [List.getD_eq_getElem?_getD] using hp2
      obtain ⟨e, heq⟩ := prepare_error_of_prices fs (rows.getD i default) i hp2
      simp only [batchPrepareLoop, heq]
      constructor
      · simp [List.takeWhile_cons, hp2E]
      · simp [hp2E]

/-- C9 counterexample row: well-formed (blank file cells are tolerated). -/
def rowT : CatalogRecord :=
  { title := "t", subtitle := none, author := "a", description_html := "d"
    keywords := "k", language := "en", bisac := "JUV000000"
    age_min := none, age_max := none, trim_size := "6x9"
    paper_color := "white", cover_finish := "matte"
    price_print_eur := some 999, price_print_usd := some 1299
    price_ebook_eur := some 799, price_ebook_usd := some 999
    ebook_cover := "", print_cover := "", epub := "", docx := "" }

/-- C9 counterexample row: NaN `price_print_eur` cell, so building the
descriptor raises `TypeError` (`None / 100`). -/
def rowS : CatalogRecord := { rowT with title := "s", price_print_eur := none }

/-- C9 counterexample row: well-formed row after the malformed one. -/
def rowU : CatalogRecord := { rowT with title := "u" }

/-- C9 counterexample: a batch of rows [t, s, u] where only row s (index 1)
is malformed. The run prepares row 0 only and aborts: the well-formed
remaining row u (index 2) is not prepared, contradicting "the remaining
rows of the batch are still prepared". -/
theorem prep_bad_row_aborts_batch :
    (process_daily_batch [rowT, rowS, rowU] ∅ []).1 = ["prepared_books/book_000_t"] ∧
    (process_daily_batch [rowT, rowS, rowU] ∅ []).2.2 = true ∧
    rowPricesOk rowU = true ∧
    bookDirName rowU 2 = "prepared_books/book_002_u" ∧
    "prepared_books/book_002_u" ∉ (process_daily_batch [rowT, rowS, rowU] ∅ []).1 := by
  refine ⟨?_, ?_, ?_, ?_, ?_⟩ <;> decide

/-- C9 (amended): during a preparation batch, a row with a missing or
unreadable file reference is tolerated (the role is simply absent), but a
malformed row — one whose required price cell is NaN — aborts the batch run
from that row on: exactly the rows before the first malformed queued row
are prepared, and the run aborts iff some queued row is malformed. -/
theorem prep_bad_row_aborts_rest (rows : List CatalogRecord)
    (processed : Finset ℕ) (fs : List String) :
    (process_daily_batch rows processed fs).1 =
      ((get_next_books_to_process rows.length processed 3).takeWhile
          (fun i => rowPricesOk (rows.getD i default))).map
        (fun i => bookDirName (rows.getD i default) i) ∧
    (process_daily_batch rows processed fs).2.2 =
      !((get_next_books_to_process rows.length processed 3).all
          (fun i => rowPricesOk (rows.getD i default))) := by
  have h := batchPrepareLoop_spec rows
    (get_next_books_to_process rows.length processed 3) fs []
  simpa [process_daily_batch] using h

end KDPFileManager
